import Mathlib

/-!
Verification of the profile merge engine of `scripts/update_profiles.py`.

A Python string is modelled as a `List Char` (named `Str`).  Each definition
below is a direct translation of a function of the source file; the regex
based helpers are translated according to the exact semantics of the Python
`re` module for the concrete patterns used by the source (lazy dots do not
cross newlines, greedy character classes backtrack to the nearest newline,
`re.sub` scans left to right and continues after each replacement).
-/

set_option maxRecDepth 100000
set_option maxHeartbeats 4000000

/-- Text content: a Python string as a list of characters. -/
abbrev Str := List Char

/-- Convert a Lean string literal to the character-list model. -/
def lit (s : String) : Str := s.toList

/-- Python `str.find(pat)`: index of the first occurrence of `pat`, if any. -/
def findSubFrom (pat : Str) : Str → Option Nat
  | [] => if pat.isEmpty then some 0 else none
  | c :: rest =>
    if pat.isPrefixOf (c :: rest) then some 0
    else (findSubFrom pat rest).map (fun i => i + 1)

/-- Python whitespace characters, the class stripped by `str.strip()`. -/
def isPyWs (c : Char) : Bool :=
  c = ' ' || c = '\t' || c = '\n' || c = '\r' || c = '\x0b' || c = '\x0c'

/-- Python `s.strip()`. -/
def stripWs (s : Str) : Str :=
  ((s.dropWhile isPyWs).reverse.dropWhile isPyWs).reverse

/-- Python `s.rstrip(c)` for a single character `c`. -/
def rstripChar (c : Char) (s : Str) : Str :=
  (s.reverse.dropWhile (fun a => a = c)).reverse

/-- Python `s.rstrip(cs)` for a set of characters `cs`. -/
def rstripSet (cs : List Char) (s : Str) : Str :=
  (s.reverse.dropWhile (fun a => cs.contains a)).reverse

/-- Truncate `s` at the first occurrence of `pat` (identity when absent).
This models `re.sub(pat ++ dotall-to-end, "", s)`. -/
def cutAtSub (pat : Str) (s : Str) : Str :=
  match findSubFrom pat s with
  | some i => s.take i
  | none => s

/-- Python `content.split(chr 10)`. -/
def splitNl : Str → List Str
  | [] => [[]]
  | c :: rest =>
    if c = '\n' then [] :: splitNl rest
    else
      match splitNl rest with
      | [] => [[c]]
      | l :: ls => (c :: l) :: ls

/-- Python `sep.join(parts)`. -/
def joinWith (sep : Str) : List Str → Str
  | [] => []
  | [l] => l
  | l :: ls => l ++ sep ++ joinWith sep ls

/-- Python `str.replace(pat, repl)`: replace every non-overlapping occurrence,
scanning left to right.  The first argument counts characters still to be
skipped after a replacement. -/
def replaceAllAux (pat repl : Str) : Nat → Str → Str
  | _ + 1, [] => []
  | k + 1, _ :: rest => replaceAllAux pat repl k rest
  | 0, [] => []
  | 0, c :: rest =>
    if pat.isPrefixOf (c :: rest) then repl ++ replaceAllAux pat repl (pat.length - 1) rest
    else c :: replaceAllAux pat repl 0 rest

/-- Python `s.replace(pat, repl)`. -/
def replaceAll (pat repl s : Str) : Str := replaceAllAux pat repl 0 s

/-- Python `str(n)` for a natural number. -/
def natToStr (n : Nat) : Str := Nat.toDigits 10 n

/-- Python string comparison (lexicographic by code point). -/
def strLtB : Str → Str → Bool
  | [], [] => false
  | [], _ :: _ => true
  | _ :: _, [] => false
  | a :: as, b :: bs => if a = b then strLtB as bs else decide (a < b)

/-- Head of `sorted(keys, reverse := true)` in Python: the maximum key. -/
def maxKey : List Str → Str
  | [] => []
  | k :: ks => ks.foldl (fun m x => if strLtB m x then x else m) k

/-! ## Section parser (`parse_profile_sections`, source lines 148-181)

`SECTION_PATTERN = re.compile(r moduleheader, re.MULTILINE)` matches a line of
the form `## <digits>. <nonempty title>`.  Each section span runs from its
heading line to the next heading line; the span of the last heading runs to
the first later line starting with the Update History heading text, or to the
end of the document.  The stored text is the span with trailing newlines
stripped and one newline appended.  Duplicate section numbers overwrite the
dictionary entry, so the last heading with a given number wins. -/

/-- Value of a digit run, as computed by Python `int`. -/
def digitsToNat (ds : Str) : Nat := ds.foldl (fun a c => a * 10 + (c.toNat - 48)) 0

/-- Does a line match the section heading pattern; if so return its number. -/
def headingNum? (l : Str) : Option Nat :=
  match l with
  | '#' :: '#' :: ' ' :: rest =>
    match rest.span (fun c => c.isDigit) with
    | (ds, r2) =>
      match ds, r2 with
      | [], _ => none
      | _ :: _, '.' :: ' ' :: _ :: _ => some (digitsToNat ds)
      | _ :: _, _ => none
  | _ => none

/-- Indices (from `i0`) and numbers of all heading lines. -/
def headingsFrom (i0 : Nat) : List Str → List (Nat × Nat)
  | [] => []
  | l :: rest =>
    match headingNum? l with
    | some n => (i0, n) :: headingsFrom (i0 + 1) rest
    | none => headingsFrom (i0 + 1) rest

/-- Indices and numbers of all heading lines of a document. -/
def headingsOf (ls : List Str) : List (Nat × Nat) := headingsFrom 0 ls

/-- The Update History heading text searched for by the parser. -/
def updateHeadingPat : Str := lit "## Update History"

/-- A line that does not start the Update History section. -/
def notUHLine (l : Str) : Bool := !(updateHeadingPat.isPrefixOf l)

/-- Drop trailing empty lines: the line-level effect of `rstrip` on newlines. -/
def dropTrailingEmpty (ls : List Str) : List Str :=
  (ls.reverse.dropWhile (fun l => l.isEmpty)).reverse

/-- Stored text of a span: `content[start:end].rstrip(nl) + nl`. -/
def mkSectionText (slice : List Str) : Str :=
  joinWith ['\n'] (dropTrailingEmpty slice) ++ ['\n']

/-- Section spans for a list of heading positions: each section ends at the
next heading; the last one ends at the Update History heading line or at the
end of the document (the search starts at the heading line itself, which can
never match, exactly as in the source). -/
def spansFrom (ls : List Str) : List (Nat × Nat) → List (Nat × Str)
  | [] => []
  | [(i, n)] => [(n, mkSectionText ((ls.drop i).takeWhile notUHLine))]
  | (i, n) :: (j, m) :: rest =>
    (n, mkSectionText ((ls.drop i).take (j - i))) :: spansFrom ls ((j, m) :: rest)

/-- All numbered sections of a document, in document order, with duplicates
kept (the dictionary of the source keeps the last duplicate; see
`lookupLast`). -/
def sectionSpans (doc : Str) : List (Nat × Str) :=
  spansFrom (splitNl doc) (headingsOf (splitNl doc))

/-- Lookup in an association list built by repeated dictionary assignment:
the last binding of a key wins. -/
def lookupLast (l : List (Nat × Str)) (n : Nat) : Option Str :=
  ((l.filter (fun p => p.1 == n)).getLast?).map (fun p => p.2)

/-- The parsed section dictionary lookup `sections.get(n)`. -/
def getSectionLast (doc : Str) (n : Nat) : Option Str :=
  lookupLast (sectionSpans doc) n

/-! ## History extractors (`extract_metrics_history`, lines 198-212, and
`extract_update_history`, lines 215-236)

Both regexes require the table header line to start immediately after the
line containing the heading text: the lazy dot cannot cross a newline, so a
blank line between the heading and the table makes the whole match fail at
that occurrence and the search moves to the next occurrence of the heading
text.  The separator-row class includes the newline (through the whitespace
class), so a greedy run swallows subsequent lines made only of class
characters and backtracks to the last newline inside the run. -/

/-- Characters of the separator-row class, newline excluded. -/
def isSepClassChar (c : Char) : Bool :=
  c = '-' || c = '|' || c = ' ' || c = '\t' || c = '\r' || c = '\x0b' || c = '\x0c'

/-- Separator-row class including the newline (the whitespace class of the
pattern contains the newline). -/
def isSepClassOrNl (c : Char) : Bool := isSepClassChar c || c = '\n'

/-- Last index of `c` in `s`, if any. -/
def lastIdxOf (c : Char) (s : Str) : Option Nat :=
  match s with
  | [] => none
  | a :: rest =>
    match lastIdxOf c rest with
    | some i => some (i + 1)
    | none => if a = c then some 0 else none

/-- Split a string at its first newline: `(line remainder, rest)`. -/
def lineSplit (s : Str) : Str × Str := s.span (fun c => c != '\n')

/-- Greedy match of the separator run and its terminating newline, given the
text right after the leading bar of the separator row; returns the text where
the captured rows start.  The run must be nonempty and end right before a
newline, so the last newline inside the maximal class run is taken. -/
def sepRunSplit (t : Str) : Option Str :=
  match lastIdxOf '\n' (t.takeWhile isSepClassOrNl) with
  | some q => if 1 ≤ q then some (t.drop (q + 1)) else none
  | none => none

/-- A captured metrics row line: starts with a bar (may be otherwise empty). -/
def rowLineOkM (l : Str) : Bool :=
  match l with
  | '|' :: _ => true
  | _ => false

/-- A captured update row line: a bar followed by at least one character. -/
def rowLineOkU (l : Str) : Bool :=
  match l with
  | '|' :: _ :: _ => true
  | _ => false

/-- Reassemble captured lines, each with its terminating newline. -/
def joinCapturedLines (ls : List Str) : Str :=
  ls.foldr (fun l acc => l ++ '\n' :: acc) []

/-- The captured group: the longest run of complete (newline terminated)
lines accepted by `ok`. -/
def captureGroup (ok : Str → Bool) (t : Str) : Str :=
  joinCapturedLines (((splitNl t).dropLast).takeWhile ok)

/-- The metrics history placeholder token of the template. -/
def metricsPlaceholder : Str := lit "\x7b\x7bMETRICS_HISTORY\x7d\x7d"

/-- The update history placeholder token of the template. -/
def updatePlaceholder : Str := lit "\x7b\x7bUPDATE_HISTORY\x7d\x7d"

/-- The metrics heading text searched for by the extractor. -/
def metricsHeadingPat : Str := lit "### Metrics History"

/-- Attempt to complete the metrics table match right after one occurrence of
the heading text: rest of the heading line, newline, a line starting with a
bar and containing a second bar, newline, a line starting with a bar followed
by a nonempty class run, newline, then the captured rows. -/
def metricsTailMatch (t : Str) : Option Str :=
  match lineSplit t with
  | (_, rest1) =>
    match rest1 with
    | '\n' :: '|' :: w =>
      match lineSplit w with
      | (a, rest2) =>
        if a.contains '|' then
          match rest2 with
          | '\n' :: '|' :: t2 =>
            match sepRunSplit t2 with
            | some afterRun => some (captureGroup rowLineOkM afterRun)
            | none => none
          | _ => none
        else none
    | _ => none

/-- Attempt to complete the update table match (the header line needs a
second bar at distance at least one from the first). -/
def updateTailMatch (t : Str) : Option Str :=
  match lineSplit t with
  | (_, rest1) =>
    match rest1 with
    | '\n' :: '|' :: w =>
      match lineSplit w with
      | (a, rest2) =>
        if (a.drop 1).contains '|' then
          match rest2 with
          | '\n' :: '|' :: t2 =>
            match sepRunSplit t2 with
            | some afterRun => some (captureGroup rowLineOkU afterRun)
            | none => none
          | _ => none
        else none
    | _ => none

/-- Scan for the first occurrence of the metrics heading from which the whole
pattern matches (on failure the regex engine advances to the next occurrence). -/
def scanMetrics : Str → Option Str
  | [] => none
  | c :: rest =>
    if metricsHeadingPat.isPrefixOf (c :: rest) then
      match metricsTailMatch (rest.drop (metricsHeadingPat.length - 1)) with
      | some g => some g
      | none => scanMetrics rest
    else scanMetrics rest

/-- `extract_metrics_history`: body rows of the metrics table, placeholder
and blank rows removed, rows returned verbatim. -/
def extract_metrics_history (content : Str) : List Str :=
  match scanMetrics content with
  | none => []
  | some g =>
    (splitNl (stripWs g)).filter
      (fun r => !(stripWs r).isEmpty && stripWs r != metricsPlaceholder)

/-- Scan for the first occurrence of the update heading from which the whole
pattern matches. -/
def scanUpdate : Str → Option Str
  | [] => none
  | c :: rest =>
    if updateHeadingPat.isPrefixOf (c :: rest) then
      match updateTailMatch (rest.drop (updateHeadingPat.length - 1)) with
      | some g => some g
      | none => scanUpdate rest
    else scanUpdate rest

/-- `extract_update_history`: body rows of the update table, stripped, rows
not starting with a bar and rows containing the placeholder removed. -/
def extract_update_history (content : Str) : List Str :=
  match scanUpdate content with
  | none => []
  | some g =>
    let rowsText := stripWs g
    if rowsText.isEmpty then []
    else
      ((splitNl rowsText).filter
        (fun r => (lit "|").isPrefixOf (stripWs r) && (findSubFrom updatePlaceholder r).isNone)).map
        stripWs

/-! ## Snapshot generator (`generate_metrics_snapshot`, lines 239-266, and
`should_add_metrics_snapshot`, lines 269-279) -/

/-- Metrics of one analytics period (absent JSON fields are `none`). -/
structure PeriodMetrics where
  prs_merged : Option Nat
  reviews : Option Nat
  lines_added : Option Nat
  lines_deleted : Option Nat

/-- Analytics data: the period dictionary. -/
structure AnalyticsData where
  periods : List (Str × PeriodMetrics)

/-- Dictionary lookup of a period. -/
def lookupPeriod (ps : List (Str × PeriodMetrics)) (k : Str) : Option PeriodMetrics :=
  (ps.find? (fun p => p.1 == k)).map (fun p => p.2)

/-- Render `metrics.get(key, na)` for the two count fields. -/
def renderOptNat : Option Nat → Str
  | some n => natToStr n
  | none => lit "N/A"

/-- `generate_metrics_snapshot`: one metrics history row for the requested
period (or the most recent one). -/
def generate_metrics_snapshot (a : AnalyticsData) (period : Option Str) : Option Str :=
  if a.periods.isEmpty then none
  else
    let keys := a.periods.map (fun p => p.1)
    let target :=
      match period with
      | some p => if !p.isEmpty && keys.contains p then p else maxKey keys
      | none => maxKey keys
    let pd := (lookupPeriod a.periods target).getD ⟨none, none, none, none⟩
    some (lit "| " ++ target ++ lit " | " ++ renderOptNat pd.prs_merged ++ lit " | " ++
      renderOptNat pd.reviews ++ lit " | +" ++ natToStr (pd.lines_added.getD 0) ++
      lit "/-" ++ natToStr (pd.lines_deleted.getD 0) ++ lit " | |")

/-- `should_add_metrics_snapshot`: true when the period occurs as a substring
of no existing metrics history row. -/
def should_add_metrics_snapshot (existing : Str) (period : Str) : Bool :=
  (extract_metrics_history existing).all (fun row => (findSubFrom period row).isNone)

/-! ## Merge engine (`merge_profiles`, lines 282-387) -/

/-- `AUTO_UPDATED_SECTIONS` of the source. -/
def AUTO_UPDATED_SECTIONS : List Nat := [1, 2, 3, 4]

/-- `MANUAL_SECTIONS` of the source. -/
def MANUAL_SECTIONS : List Nat := [5, 6, 7, 8, 9, 10]

/-- `APPEND_ONLY_SECTIONS` of the source. -/
def APPEND_ONLY_SECTIONS : List Nat := [11, 12]

/-- Section selection of the merge loop (lines 310-323): auto sections come
from the fresh document, manual and append-only sections from the existing
document with fallback to the fresh one. -/
def selectSection (n : Nat) (newS exS : List (Nat × Str)) : Option Str :=
  if AUTO_UPDATED_SECTIONS.contains n then lookupLast newS n
  else if MANUAL_SECTIONS.contains n || APPEND_ONLY_SECTIONS.contains n then
    match lookupLast exS n with
    | some s => some s
    | none => lookupLast newS n
  else none

/-- The living-document footer marker removed from section bodies. -/
def footerMark : Str := lit "\n*This is a living document"

/-- Per-section cleanup before reassembly (lines 326-329): strip trailing
newlines, then trailing hyphens, then trailing newlines, cut at an embedded
footer, strip surrounding whitespace. -/
def cleanupSection (s : Str) : Str :=
  stripWs (cutAtSub footerMark (rstripChar '\n' (rstripChar '-' (rstripChar '\n' s))))

/-- Header part (lines 303-307): the prefix of the fresh document before the
first occurrence of the section one marker, right-stripped of newlines and
hyphens and then stripped; no part at all when the marker is absent. -/
def headerPartsOf (newContent : Str) : List Str :=
  match findSubFrom (lit "## 1.") newContent with
  | some i => [stripWs (rstripSet ['\n', '-'] (newContent.take i))]
  | none => []

/-- The numbered section parts of the merged document, in ascending order
(lines 309-329).  A selected section is appended after cleanup; the
truthiness test of the source is on the raw selected text. -/
def sectionPartsOf (newContent existingContent : Str) : List Str :=
  (List.range' 1 12).filterMap (fun n =>
    match selectSection n (sectionSpans newContent) (sectionSpans existingContent) with
    | some s => if s.isEmpty then none else some (cleanupSection s)
    | none => none)

/-- All parts joined by the separator in `merge_profiles`. -/
def mergedPartsOf (newContent existingContent : Str) : List Str :=
  headerPartsOf newContent ++ sectionPartsOf newContent existingContent

/-- The snapshot row possibly added by the merge (lines 334-339). -/
def mergeSnapshotOf (analytics : Option AnalyticsData) (existingContent : Str) : Option Str :=
  match analytics with
  | none => none
  | some a =>
    if a.periods.isEmpty then none
    else
      let latest := maxKey (a.periods.map (fun p => p.1))
      if should_add_metrics_snapshot existingContent latest then
        generate_metrics_snapshot a (some latest)
      else none

/-- The combined metrics row list (lines 342-345): new snapshot first, then
the rows extracted from the existing document. -/
def allMetricsRowsOf (analytics : Option AnalyticsData) (existingContent : Str) : List Str :=
  (mergeSnapshotOf analytics existingContent).toList ++ extract_metrics_history existingContent

/-- The new update history row (lines 359-361). -/
def newUpdateRowOf (today : Str) (dataSources : List Str) : Str :=
  lit "| " ++ today ++ lit " | Profile refreshed | " ++
    (if dataSources.isEmpty then lit "Auto-refresh" else joinWith (lit ", ") dataSources) ++
    lit " |"

/-- The combined update history rows (line 364): new row first. -/
def allUpdateRowsOf (today : Str) (dataSources : List Str) (existingContent : Str) : List Str :=
  newUpdateRowOf today dataSources :: extract_update_history existingContent

/-- Fixed text of the regenerated Update History section above the rows. -/
def updateHistoryHeaderText : Str :=
  lit "## Update History\n\n<!-- AUTO-APPENDED: Log of each profile update -->\n\n| Date | Changes | Data Sources Refreshed |\n|------|---------|------------------------|\n"

/-- Fixed text of the regenerated Update History section below the rows. -/
def footerText : Str :=
  lit "\n\n---\n\n*This is a living document. Sections marked AUTO-UPDATED refresh automatically. Sections marked MANUAL or APPEND-ONLY require human input.*\n"

/-- The repeated separator unit of the final cleanup pattern. -/
def sepUnit : Str := ['\n', '-', '-', '-', '\n', '\n']

/-- The replacement text of the final cleanup pattern. -/
def sepRepl : Str := ['\n', '\n', '-', '-', '-', '\n', '\n']

/-- First cleanup substitution (line 384): each maximal run of one or more
separator units is replaced by the (one character longer) canonical
separator; scanning continues after each replacement.  The counter skips the
characters of a consumed unit; the flag records that a run is in progress so
only its first unit emits the replacement. -/
def sub1Aux : Nat → Bool → Str → Str
  | _ + 1, _, [] => []
  | k + 1, inRun, _ :: rest => sub1Aux k inRun rest
  | 0, _, [] => []
  | 0, inRun, c :: rest =>
    if sepUnit.isPrefixOf (c :: rest) then
      (if inRun then [] else sepRepl) ++ sub1Aux 5 true rest
    else c :: sub1Aux 0 false rest

/-- First cleanup substitution on a document. -/
def sub1 (s : Str) : Str := sub1Aux 0 false s

/-- The leading separator line removed by the second substitution. -/
def sepLine4 : Str := ['-', '-', '-', '\n']

/-- Second cleanup substitution (line 385): drop one leading separator line,
only when the document starts with exactly that. -/
def sub2 (s : Str) : Str := if sepLine4.isPrefixOf s then s.drop 4 else s

/-- `merge_profiles` (lines 282-387).  The current date is an explicit
argument of the model. -/
def merge_profiles (today : Str) (dataSources : List Str) (analytics : Option AnalyticsData)
    (newContent existingContent : Str) : Str :=
  let parts := mergedPartsOf newContent existingContent
  let rows := allMetricsRowsOf analytics existingContent
  let m1 := joinWith (lit "\n\n---\n\n") parts
  let m2 := replaceAll metricsPlaceholder (joinWith ['\n'] rows) m1
  let uh := updateHistoryHeaderText ++
    joinWith ['\n'] (allUpdateRowsOf today dataSources existingContent) ++ footerText
  let m3 := m2 ++ lit "\n\n---\n\n" ++ uh
  sub2 (sub1 m3)

/-! ## Profile update entry points (`update_profile`, lines 940-1072, and
`update_all_profiles`, lines 1075-1111)

The freshly generated template content (`generate_profile`) is an explicit
input of the model; the profile store is an association list from profile
name to file content. -/

/-- The change description of the non-merge branch (lines 1037-1044). -/
def initChangeType (init regenerate fileExists : Bool) : Str :=
  if regenerate && fileExists then lit "Profile regenerated from template"
  else if init then lit "Profile initialized"
  else lit "Profile created"

/-- `update_profile`: returns `none` when the update is refused (the source
returns false before touching the file), otherwise the content written. -/
def update_profile (init force regenerate : Bool) (existing : Option Str) (newContent : Str)
    (dataSources : List Str) (analytics : Option AnalyticsData) (today : Str) : Option Str :=
  if init && existing.isSome && !force then none
  else
    let shouldMerge := existing.isSome && !regenerate && !init
    let c1 :=
      if shouldMerge then
        merge_profiles today dataSources analytics newContent (existing.getD [])
      else
        let row := lit "| " ++ today ++ lit " | " ++
          initChangeType init regenerate existing.isSome ++ lit " | " ++
          (if dataSources.isEmpty then lit "Initial creation" else joinWith (lit ", ") dataSources) ++
          lit " |"
        let c := replaceAll updatePlaceholder row newContent
        match analytics with
        | some a =>
          if !a.periods.isEmpty then
            match generate_metrics_snapshot a (some (maxKey (a.periods.map (fun p => p.1)))) with
            | some snap => replaceAll metricsPlaceholder snap c
            | none => c
          else c
        | none => c
    some (replaceAll updatePlaceholder [] (replaceAll metricsPlaceholder [] c1))

/-- One team member of the batch: profile name, freshly generated content and
analytics data. -/
structure TeamMember where
  name : Str
  newContent : Str
  analytics : Option AnalyticsData

/-- Lookup a profile file by name. -/
def alookup (fs : List (Str × Str)) (k : Str) : Option Str :=
  (fs.find? (fun p => p.1 == k)).map (fun p => p.2)

/-- Write a profile file (overwrite or create). -/
def aset : List (Str × Str) → Str → Str → List (Str × Str)
  | [], k, v => [(k, v)]
  | (k0, v0) :: rest, k, v =>
    if k0 == k then (k, v) :: rest else (k0, v0) :: aset rest k v

/-- `update_all_profiles`: fold over the members, recording each one as
updated or skipped and threading the profile store. -/
def update_all_profiles (init force regenerate : Bool) (dataSources : List Str) (today : Str) :
    List TeamMember → List (Str × Str) → (List Str × List Str) × List (Str × Str)
  | [], fs => (([], []), fs)
  | m :: rest, fs =>
    match update_profile init force regenerate (alookup fs m.name) m.newContent dataSources
        m.analytics today with
    | some c =>
      let r := update_all_profiles init force regenerate dataSources today rest (aset fs m.name c)
      ((m.name :: r.1.1, r.1.2), r.2)
    | none =>
      let r := update_all_profiles init force regenerate dataSources today rest fs
      ((r.1.1, m.name :: r.1.2), r.2)

/-! ## Concrete documents used by the evaluations and witnesses -/

/-- A fresh (template-rendered) document: header, auto sections one and two
with a tight metrics table and the placeholder, and a default section five. -/
def exF0 : Str := lit "# John Doe\n\nRole summary line\n\n## 1. Profile Overview\n\nFresh overview text.\n\n## 2. Delivery Performance\n\n### Metrics History\n| Period | PRs | Reviews | Lines | Notes |\n|--------|-----|---------|-------|-------|\n\x7b\x7bMETRICS_HISTORY\x7d\x7d\n\n## 5. Leadership\n\nTemplate default leadership text.\n"

/-- A hand-written existing document whose metrics and update tables are in
the tight layout accepted by the extractors, with one metrics row for period
2025-12 and one prior update history row dated 2025-01-01. -/
def exD0 : Str := lit "# John Doe\n\n## 1. Profile Overview\n\nOld overview.\n\n## 2. Delivery Performance\n\n### Metrics History\n| Period | PRs | Reviews | Lines | Notes |\n|--------|-----|---------|-------|-------|\n| 2025-12 | 10 | 5 | +200/-50 | |\n\n## 5. Leadership\n\nMy own leadership notes.\n\n## Update History\n| Date | Changes | Data Sources Refreshed |\n|------|---------|------------------------|\n| 2025-01-01 | Profile created | Initial creation |\n"

/-- Analytics data whose only (hence latest) period is 2025-12, matching the
metrics row already present in the existing document. -/
def exA0 : AnalyticsData :=
  ⟨[(lit "2025-12", ⟨some 10, some 5, some 200, some 50⟩)]⟩

/-- The date of the modelled merge runs. -/
def exToday : Str := lit "2026-02-03"

/-- Output of the first merge. -/
def exO1 : Str := merge_profiles exToday [lit "Slack"] (some exA0) exF0 exD0

/-- Output of the second merge, applied to the first output with the same
fresh document, sources and analytics data. -/
def exO2 : Str := merge_profiles exToday [lit "Slack"] (some exA0) exF0 exO1

/-- Number of update history data rows visible in a document. -/
def updateRowCount (doc : Str) : Nat :=
  ((splitNl doc).filter (fun l => (findSubFrom (lit "| Profile ") l).isSome)).length


/-- Existing document whose manual section five embeds the living-document
footer marker followed by further content. -/
def exD2 : Str := lit "## 1. Profile Overview\n\nOld.\n\n## 5. Leadership\n\nNotes.\n*This is a living document phrase KEEPME\n"

/-- Minimal fresh document for the section five preservation evaluation. -/
def exF2 : Str := lit "Header\n\n## 1. Profile Overview\n\nFresh overview.\n"

/-- Merge output of the section five preservation evaluation. -/
def exC2O : Str := merge_profiles exToday [] none exF2 exD2

/-- Remove every whitespace character: two texts equal up to whitespace
normalization agree on this image. -/
def nonWs (s : Str) : Str := s.filter (fun c => !(isPyWs c))

/-- Existing document with two metrics rows both mentioning period 2025-12
(the second one in its note field). -/
def exD3 : Str := lit "## 2. Delivery Performance\n\n### Metrics History\n| Period | PRs | Reviews | Lines | Notes |\n|--------|-----|---------|-------|-------|\n| 2025-12 | 10 | 5 | +200/-50 | |\n| 2025-11 | 7 | 2 | +100/-20 | carry into 2025-12 |\n"

/-- Merge output of the duplicate-period evaluation. -/
def exC3O : Str := merge_profiles exToday [lit "Slack"] (some exA0) exF0 exD3

/-- Predicate: the row mentions the period as a substring. -/
def mentionsP (p : Str) (row : Str) : Bool := (findSubFrom p row).isSome

/-- Fresh document with no section one at all: its leading free text is the
header the specification expects to be preserved. -/
def exF6 : Str := lit "Team header KEEPHDR\n\n## 2. Delivery Performance\nStuff\n"

/-- Merge output of the header preservation evaluation. -/
def exC6O : Str := merge_profiles exToday [] none exF6 (lit "")

/-- Document whose Update History heading precedes a later numbered heading. -/
def exC7 : Str := lit "## 1. A\nx\n## Update History\n| D | C | S |\n|---|---|---|\n## 2. B\ny\n"

/-- Fresh document starting with two separator lines before the header text. -/
def exF8 : Str := lit "---\n---\nIntro\n\n## 1. Profile Overview\nFresh.\n"

/-- Merge output of the separator normalization evaluation. -/
def exC8O : Str := merge_profiles exToday [] none exF8 (lit "")

/-- Document with two headings numbered three. -/
def exC10 : Str := lit "## 3. First\nold\n## 3. Second\nnew\n"


/-! ## Helper lemmas -/

theorem findSubFrom_isSome_of_isPrefixOf (pat v : Str) (h : pat.isPrefixOf v = true) :
    (findSubFrom pat v).isSome = true := by
  cases v with
  | nil =>
    have hp : pat = [] := by
      cases pat with
      | nil => rfl
      | cons a as => simp [List.isPrefixOf] at h
    subst hp
    simp [findSubFrom]
  | cons c rest => simp [findSubFrom, h]

theorem findSubFrom_append_isSome (pat u v : Str) (h : (findSubFrom pat v).isSome = true) :
    (findSubFrom pat (u ++ v)).isSome = true := by
  induction u with
  | nil => simpa using h
  | cons c cs ih =>
    rw [List.cons_append]
    by_cases hp : pat.isPrefixOf (c :: (cs ++ v)) = true
    · simp [findSubFrom, hp]
    · simp only [findSubFrom, hp, if_false, Bool.false_eq_true]
      cases hfs : findSubFrom pat (cs ++ v) with
      | none => rw [hfs] at ih; simp at ih
      | some i => simp

theorem lookupLast_mem {l : List (Nat × Str)} {n : Nat} {s : Str}
    (h : lookupLast l n = some s) : (n, s) ∈ l := by
  unfold lookupLast at h
  rw [Option.map_eq_some'] at h
  obtain ⟨p, hp, hps⟩ := h
  have hmem : p ∈ l.filter (fun p => p.1 == n) := by
    rcases List.getLast?_eq_some_iff.mp hp with ⟨ys, hys⟩
    rw [hys]
    exact List.mem_append_of_mem_right ys (by simp)
  obtain ⟨hl, hpred⟩ := List.mem_filter.mp hmem
  have h1 : p.1 = n := by simpa using hpred
  have : p = (n, s) := by
    obtain ⟨p1, p2⟩ := p
    simp only [Prod.mk.injEq]
    exact ⟨h1, hps⟩
  rw [← this]
  exact hl

theorem spansFrom_snd_ne_nil (ls : List Str) :
    ∀ (hs : List (Nat × Nat)), ∀ p ∈ spansFrom ls hs, p.2 ≠ [] := by
  intro hs
  induction hs with
  | nil => intro p hp; simp [spansFrom] at hp
  | cons h0 t ih =>
    intro p hp
    obtain ⟨i, n⟩ := h0
    cases t with
    | nil =>
      simp only [spansFrom, List.mem_singleton] at hp
      subst hp
      simp [mkSectionText]
    | cons h2 t2 =>
      obtain ⟨j, m⟩ := h2
      simp only [spansFrom, List.mem_cons] at hp
      rcases hp with hp | hp
      · subst hp; simp [mkSectionText]
      · exact ih p hp

theorem sectionSpans_snd_ne_nil {doc : Str} {n : Nat} {s : Str}
    (h : lookupLast (sectionSpans doc) n = some s) : s ≠ [] :=
  spansFrom_snd_ne_nil _ _ (n, s) (lookupLast_mem h)

theorem splitNl_ne_nil (s : Str) : splitNl s ≠ [] := by
  cases s with
  | nil => simp [splitNl]
  | cons c rest =>
    by_cases hc : c = '\n'
    · simp [splitNl, hc]
    · simp only [splitNl, if_neg hc]
      cases splitNl rest <;> simp

theorem splitNl_not_mem_nl : ∀ (s : Str), ∀ l ∈ splitNl s, ¬ '\n' ∈ l := by
  intro s
  induction s with
  | nil =>
    intro l hl
    simp [splitNl] at hl
    subst hl; simp
  | cons c rest ih =>
    intro l hl
    by_cases hc : c = '\n'
    · subst hc
      rw [show splitNl ('\n' :: rest) = [] :: splitNl rest from rfl, List.mem_cons] at hl
      rcases hl with hl | hl
      · subst hl; simp
      · exact ih l hl
    · simp only [splitNl, if_neg hc] at hl
      cases hsp : splitNl rest with
      | nil => exact absurd hsp (splitNl_ne_nil rest)
      | cons l0 ls0 =>
        rw [hsp, List.mem_cons] at hl
        rcases hl with hl | hl
        · subst hl
          intro hmem
          rcases List.mem_cons.mp hmem with hmem | hmem
          · exact hc hmem.symm
          · exact ih l0 (by rw [hsp]; exact List.mem_cons_self _ _) hmem
        · exact ih l (by rw [hsp]; exact List.mem_cons_of_mem _ hl)

theorem splitNl_append_nl (x t : Str) (hx : ¬ '\n' ∈ x) :
    splitNl (x ++ '\n' :: t) = x :: splitNl t := by
  induction x with
  | nil => simp [splitNl]
  | cons c cs ih =>
    have hc : ¬ c = '\n' := fun h => hx (by simp [h])
    have hcs : ¬ '\n' ∈ cs := fun h => hx (List.mem_cons_of_mem _ h)
    rw [List.cons_append]
    simp only [splitNl, if_neg hc, ih hcs]

theorem mem_splitNl_joinWith : ∀ (ds : List Str), (∀ l ∈ ds, ¬ '\n' ∈ l) →
    ∀ l ∈ splitNl (joinWith ['\n'] ds ++ ['\n']), l ∈ ds ∨ l = [] := by
  intro ds
  induction ds with
  | nil =>
    intro _ l hl
    simp [joinWith, splitNl] at hl
    exact Or.inr hl
  | cons x xs ih =>
    intro hnl l hl
    have hx : ¬ '\n' ∈ x := hnl x (List.mem_cons_self _ _)
    cases xs with
    | nil =>
      rw [show joinWith ['\n'] [x] ++ ['\n'] = x ++ '\n' :: [] from rfl,
        splitNl_append_nl x [] hx, List.mem_cons] at hl
      rcases hl with hl | hl
      · exact Or.inl (by rw [hl]; exact List.mem_cons_self _ _)
      · simp only [splitNl, List.mem_singleton] at hl
        exact Or.inr hl
    | cons y ys =>
      have hxs : ∀ l ∈ y :: ys, ¬ '\n' ∈ l := fun l h => hnl l (List.mem_cons_of_mem _ h)
      rw [show joinWith ['\n'] (x :: y :: ys) ++ ['\n'] =
        x ++ '\n' :: (joinWith ['\n'] (y :: ys) ++ ['\n']) by simp [joinWith],
        splitNl_append_nl x _ hx, List.mem_cons] at hl
      rcases hl with hl | hl
      · exact Or.inl (by rw [hl]; exact List.mem_cons_self _ _)
      · rcases ih hxs l hl with h | h
        · exact Or.inl (List.mem_cons_of_mem _ h)
        · exact Or.inr h

theorem mem_dropTrailingEmpty {ls : List Str} {l : Str} (h : l ∈ dropTrailingEmpty ls) :
    l ∈ ls := by
  unfold dropTrailingEmpty at h
  rw [List.mem_reverse] at h
  exact List.mem_reverse.mp (List.Sublist.mem h (List.dropWhile_sublist _))

theorem mem_splitNl_mkSectionText {slice : List Str} (hnl : ∀ l ∈ slice, ¬ '\n' ∈ l) :
    ∀ l ∈ splitNl (mkSectionText slice), l ∈ slice ∨ l = [] := by
  intro l hl
  have hds : ∀ l ∈ dropTrailingEmpty slice, ¬ '\n' ∈ l :=
    fun l h => hnl l (mem_dropTrailingEmpty h)
  rcases mem_splitNl_joinWith (dropTrailingEmpty slice) hds l hl with h | h
  · exact Or.inl (mem_dropTrailingEmpty h)
  · exact Or.inr h

theorem getLast?_cons_ne_nil {α : Type} {x : α} {l : List α} (h : l ≠ []) :
    (x :: l).getLast? = l.getLast? := by
  cases l with
  | nil => exact absurd rfl h
  | cons y ys => exact List.getLast?_cons_cons

theorem spansFrom_ne_nil (ls : List Str) (h0 : Nat × Nat) (hs : List (Nat × Nat)) :
    spansFrom ls (h0 :: hs) ≠ [] := by
  obtain ⟨i, n⟩ := h0
  cases hs with
  | nil => simp [spansFrom]
  | cons h2 t2 =>
    obtain ⟨j, m⟩ := h2
    simp [spansFrom]

theorem spansFrom_getLast? (ls : List Str) :
    ∀ (hs : List (Nat × Nat)) (i n : Nat),
      ∃ j m, ((i, n) :: hs).getLast? = some (j, m) ∧
        (spansFrom ls ((i, n) :: hs)).getLast? =
          some (m, mkSectionText ((ls.drop j).takeWhile notUHLine)) := by
  intro hs
  induction hs with
  | nil => intro i n; exact ⟨i, n, rfl, rfl⟩
  | cons h2 t2 ih =>
    intro i n
    obtain ⟨j2, m2⟩ := h2
    obtain ⟨j, m, h1, h2'⟩ := ih j2 m2
    refine ⟨j, m, ?_, ?_⟩
    · rw [List.getLast?_cons_cons]; exact h1
    · rw [show spansFrom ls ((i, n) :: (j2, m2) :: t2) =
        (n, mkSectionText ((ls.drop i).take (j2 - i))) :: spansFrom ls ((j2, m2) :: t2) from rfl,
        getLast?_cons_ne_nil (spansFrom_ne_nil ls (j2, m2) t2)]
      exact h2'

/-! ## Claim theorems -/

/-- C1 (code bug, evaluation at the failing input): merging the first merge
output again with the same fresh document, data sources and analytics data
(whose only period already appears in the metrics history) drops the prior
update-history row instead of carrying it forward: the date of the old row
occurs in the existing document and in the first output but nowhere in the
second output, so the second output is not the first output plus one
prepended update-history row. -/
theorem C1_secondMergeDropsRows_eval :
    (findSubFrom (lit "2025-01-01") exD0).isSome = true ∧
    (findSubFrom (lit "2025-01-01") exO1).isSome = true ∧
    findSubFrom (lit "2025-01-01") exO2 = none := ⟨rfl, rfl, rfl⟩

/-- C4 (code bug, evaluation at the failing input): the first merge output
contains two update-history rows; merging it again produces a document with
one row, not three — the update-history row count is not incremented by one,
because the extraction regex cannot match the generated section layout. -/
theorem C4_rowCountNotIncremented_eval :
    updateRowCount exO1 = 2 ∧ updateRowCount exO2 = 1 ∧
    extract_update_history exO1 = [] := ⟨rfl, rfl, rfl⟩

/-- C2 (counterexample): the existing manual section five embeds the footer
marker text; the merge cleanup cuts the section at that marker, so the merged
output loses non-whitespace content of the section (the trailing phrase) and
the two section texts differ even after removing every whitespace character —
no whitespace normalization can reconcile them. -/
theorem C2_counterexample :
    (getSectionLast exC2O 5).isSome = true ∧
    (getSectionLast exD2 5).map nonWs ≠ (getSectionLast exC2O 5).map nonWs ∧
    (findSubFrom (lit "KEEPME") exD2).isSome = true ∧
    findSubFrom (lit "KEEPME") exC2O = none := by
  refine ⟨rfl, ?_, rfl, rfl⟩
  decide

/-- C2 (amended): for every manual section number present in the existing
document, the merge selects the existing text for that section, regardless of
the fresh document, and places it among the merged parts after the section
cleanup (trailing newlines and hyphens stripped, any embedded footer marker
cut, surrounding whitespace stripped). -/
theorem C2_manualSectionPreserved (F D : Str) (n : Nat) (s : Str)
    (hn : n ∈ MANUAL_SECTIONS) (hD : lookupLast (sectionSpans D) n = some s) :
    selectSection n (sectionSpans F) (sectionSpans D) = some s ∧
    cleanupSection s ∈ mergedPartsOf F D := by
  have hne : s ≠ [] := sectionSpans_snd_ne_nil hD
  have hnee : s.isEmpty = false := by
    cases s with
    | nil => exact absurd rfl hne
    | cons a as => rfl
  simp only [MANUAL_SECTIONS, List.mem_cons, List.mem_singleton, List.not_mem_nil, or_false] at hn
  have h1 : n ∈ List.range' 1 12 := by
    rcases hn with rfl | rfl | rfl | rfl | rfl | rfl <;> decide
  have h2 : AUTO_UPDATED_SECTIONS.contains n = false := by
    rcases hn with rfl | rfl | rfl | rfl | rfl | rfl <;> decide
  have h3 : (MANUAL_SECTIONS.contains n || APPEND_ONLY_SECTIONS.contains n) = true := by
    rcases hn with rfl | rfl | rfl | rfl | rfl | rfl <;> decide
  have hsel : selectSection n (sectionSpans F) (sectionSpans D) = some s := by
    unfold selectSection
    rw [if_neg (by rw [h2]; exact Bool.false_ne_true), if_pos h3, hD]
  refine ⟨hsel, List.mem_append_of_mem_right _ (List.mem_filterMap.mpr ⟨n, h1, ?_⟩)⟩
  rw [hsel]
  simp [hnee]

/-- C2 (witness): concrete instantiation of the amended preservation theorem
at section five of the concrete existing document. -/
theorem C2_manualSectionPreserved_witness :
    selectSection 5 (sectionSpans exF0) (sectionSpans exD0) =
      some (lit "## 5. Leadership\n\nMy own leadership notes.\n") ∧
    cleanupSection (lit "## 5. Leadership\n\nMy own leadership notes.\n") ∈
      mergedPartsOf exF0 exD0 :=
  C2_manualSectionPreserved exF0 exD0 5 _ (by decide) rfl

/-- C5: for a section number in the manual or append-only range that the
existing document lacks and the fresh document provides, the merge falls back
to the fresh (template-default) text: the selection returns the fresh section
and its cleaned text is one of the merged parts, so the section is not
omitted. -/
theorem C5_fallbackToFresh (F D : Str) (n : Nat) (s : Str)
    (hn : n ∈ MANUAL_SECTIONS ∨ n ∈ APPEND_ONLY_SECTIONS)
    (hD : lookupLast (sectionSpans D) n = none)
    (hF : lookupLast (sectionSpans F) n = some s) :
    selectSection n (sectionSpans F) (sectionSpans D) = some s ∧
    cleanupSection s ∈ mergedPartsOf F D := by
  have hne : s ≠ [] := sectionSpans_snd_ne_nil hF
  have hnee : s.isEmpty = false := by
    cases s with
    | nil => exact absurd rfl hne
    | cons a as => rfl
  simp only [MANUAL_SECTIONS, APPEND_ONLY_SECTIONS, List.mem_cons, List.mem_singleton,
    List.not_mem_nil, or_false] at hn
  have hn' : n = 5 ∨ n = 6 ∨ n = 7 ∨ n = 8 ∨ n = 9 ∨ n = 10 ∨ n = 11 ∨ n = 12 := by tauto
  have h1 : n ∈ List.range' 1 12 := by
    rcases hn' with rfl | rfl | rfl | rfl | rfl | rfl | rfl | rfl <;> decide
  have h2 : AUTO_UPDATED_SECTIONS.contains n = false := by
    rcases hn' with rfl | rfl | rfl | rfl | rfl | rfl | rfl | rfl <;> decide
  have h3 : (MANUAL_SECTIONS.contains n || APPEND_ONLY_SECTIONS.contains n) = true := by
    rcases hn' with rfl | rfl | rfl | rfl | rfl | rfl | rfl | rfl <;> decide
  have hsel : selectSection n (sectionSpans F) (sectionSpans D) = some s := by
    unfold selectSection
    rw [if_neg (by rw [h2]; exact Bool.false_ne_true), if_pos h3, hD, hF]
  refine ⟨hsel, List.mem_append_of_mem_right _ (List.mem_filterMap.mpr ⟨n, h1, ?_⟩)⟩
  rw [hsel]
  simp [hnee]

/-- C5 (witness): section five is absent from the empty existing document and
present in the concrete fresh document; the merged parts contain the fresh
default text. -/
theorem C5_fallbackToFresh_witness :
    selectSection 5 (sectionSpans exF0) (sectionSpans (lit "")) =
      some (lit "## 5. Leadership\n\nTemplate default leadership text.\n") ∧
    cleanupSection (lit "## 5. Leadership\n\nTemplate default leadership text.\n") ∈
      mergedPartsOf exF0 (lit "") :=
  C5_fallbackToFresh exF0 (lit "") 5 _ (Or.inl (by decide)) rfl rfl

/-- C3 (counterexample): an existing document with two extractable metrics
rows both mentioning period 2025-12 (one in its note field); the merge
observes latest period 2025-12, adds no snapshot, and carries both rows into
the merged metrics table, which therefore contains two rows mentioning that
period — not at most one. -/
theorem C3_counterexample :
    maxKey (exA0.periods.map (fun p => p.1)) = lit "2025-12" ∧
    ((extract_metrics_history exD3).filter (mentionsP (lit "2025-12"))).length = 2 ∧
    ((extract_metrics_history exC3O).filter (mentionsP (lit "2025-12"))).length = 2 :=
  ⟨rfl, rfl, rfl⟩

/-- C3 (amended): the merge adds no snapshot when the latest period occurs in
an extracted existing row; the combined metrics row list keeps at most one
row mentioning the latest period provided at most one extracted existing row
mentions it; and when a snapshot is added it is placed first, the extracted
rows carried forward unchanged beneath it, and it mentions the period. -/
theorem C3_atMostOnePeriodRow (a : AnalyticsData) (exC : Str) (latest : Str)
    (hne : a.periods.isEmpty = false)
    (hlatest : latest = maxKey (a.periods.map (fun p => p.1)))
    (h1 : ((extract_metrics_history exC).filter (mentionsP latest)).length ≤ 1) :
    ((allMetricsRowsOf (some a) exC).filter (mentionsP latest)).length ≤ 1 ∧
    (should_add_metrics_snapshot exC latest = false →
      allMetricsRowsOf (some a) exC = extract_metrics_history exC) ∧
    (should_add_metrics_snapshot exC latest = true →
      ∃ snap, allMetricsRowsOf (some a) exC = snap :: extract_metrics_history exC ∧
        mentionsP latest snap = true) := by
  have hsnap : mergeSnapshotOf (some a) exC =
      if should_add_metrics_snapshot exC latest then generate_metrics_snapshot a (some latest)
      else none := by
    show (if a.periods.isEmpty = true then none
      else if should_add_metrics_snapshot exC (maxKey (a.periods.map (fun p => p.1))) then
        generate_metrics_snapshot a (some (maxKey (a.periods.map (fun p => p.1))))
      else none) = _
    rw [hne, ← hlatest]
    simp
  cases hadd : should_add_metrics_snapshot exC latest with
  | false =>
    have hrows : allMetricsRowsOf (some a) exC = extract_metrics_history exC := by
      unfold allMetricsRowsOf
      rw [hsnap, hadd]
      simp
    refine ⟨by rw [hrows]; exact h1, fun _ => hrows, fun h => by simp [hadd] at h⟩
  | true =>
    have htarget :
        (if !latest.isEmpty && (a.periods.map (fun p => p.1)).contains latest then latest
          else maxKey (a.periods.map (fun p => p.1))) = latest := by
      by_cases hc : (!latest.isEmpty && (a.periods.map (fun p => p.1)).contains latest) = true
      · rw [if_pos hc]
      · rw [if_neg hc, ← hlatest]
    have hgen : ∃ tail, generate_metrics_snapshot a (some latest) =
        some (lit "| " ++ (latest ++ tail)) := by
      show (∃ tail, (if a.periods.isEmpty = true then none else _) = _)
      rw [hne]
      simp only [Bool.false_eq_true, if_false]
      rw [htarget]
      simp only [List.append_assoc]
      exact ⟨_, rfl⟩
    obtain ⟨tail, hgenEq⟩ := hgen
    have hsnapVal : mergeSnapshotOf (some a) exC = some (lit "| " ++ (latest ++ tail)) := by
      rw [hsnap, hadd, if_pos rfl, hgenEq]
    have hrows : allMetricsRowsOf (some a) exC =
        (lit "| " ++ (latest ++ tail)) :: extract_metrics_history exC := by
      unfold allMetricsRowsOf
      rw [hsnapVal]
      rfl
    have hmention : mentionsP latest (lit "| " ++ (latest ++ tail)) = true := by
      unfold mentionsP
      exact findSubFrom_append_isSome latest (lit "| ") (latest ++ tail)
        (findSubFrom_isSome_of_isPrefixOf latest (latest ++ tail)
          (List.isPrefixOf_iff_prefix.mpr (List.prefix_append latest tail)))
    have hnone : ∀ row ∈ extract_metrics_history exC, mentionsP latest row = false := by
      intro row hrow
      have := List.all_eq_true.mp hadd row hrow
      unfold mentionsP
      simp only [Option.isNone_iff_eq_none] at this
      rw [this]
      rfl
    have hfilterNil : (extract_metrics_history exC).filter (mentionsP latest) = [] := by
      rw [List.filter_eq_nil_iff]
      intro row hrow
      rw [hnone row hrow]
      exact Bool.false_ne_true
    refine ⟨?_, fun h => by simp [hadd] at h, fun _ =>
      ⟨lit "| " ++ (latest ++ tail), hrows, hmention⟩⟩
    rw [hrows, List.filter_cons, if_pos (by rw [hmention]), hfilterNil]
    simp

/-- C3 (witness): the amended duplicate-suppression theorem applied to the
concrete analytics data and existing document: the combined rows keep at most
one row mentioning the latest period 2025-12. -/
theorem C3_atMostOnePeriodRow_witness :
    ((allMetricsRowsOf (some exA0) exD0).filter (mentionsP (lit "2025-12"))).length ≤ 1 :=
  (C3_atMostOnePeriodRow exA0 exD0 (lit "2025-12") rfl (by decide) (by decide)).1

/-- C6 (counterexample): a fresh document with free text before its first
numbered section but no section one at all: the header regex anchors on the
section one marker, finds nothing, and the free text is dropped entirely from
the merged output instead of appearing unchanged at its start. -/
theorem C6_counterexample :
    (findSubFrom (lit "KEEPHDR") exF6).isSome = true ∧
    findSubFrom (lit "KEEPHDR") exC6O = none := ⟨rfl, rfl⟩

/-- C6 (amended): when the fresh document contains the section one marker,
the text before its first occurrence — right-stripped of newlines and hyphens
and then stripped of surrounding whitespace — is the first merged part; when
the marker is absent no header part is emitted at all. -/
theorem C6_headerRule (F D : Str) :
    (∀ i, findSubFrom (lit "## 1.") F = some i →
      mergedPartsOf F D = stripWs (rstripSet ['\n', '-'] (F.take i)) :: sectionPartsOf F D) ∧
    (findSubFrom (lit "## 1.") F = none → mergedPartsOf F D = sectionPartsOf F D) := by
  constructor
  · intro i h
    unfold mergedPartsOf headerPartsOf
    rw [h]
    rfl
  · intro h
    unfold mergedPartsOf headerPartsOf
    rw [h]
    rfl

/-- C6 (witness): the amended header rule applied to the concrete fresh
document, whose section one marker starts at index 31. -/
theorem C6_headerRule_witness :
    mergedPartsOf exF0 exD0 =
      stripWs (rstripSet ['\n', '-'] (exF0.take 31)) :: sectionPartsOf exF0 exD0 :=
  (C6_headerRule exF0 exD0).1 31 rfl

/-- C7 (counterexample): in a document where the Update History heading
precedes a later numbered heading, the span of the earlier numbered section
runs to the next numbered heading and therefore contains the whole Update
History block, contradicting the whichever-comes-first rule. -/
theorem C7_counterexample :
    getSectionLast exC7 1 =
      some (lit "## 1. A\nx\n## Update History\n| D | C | S |\n|---|---|---|\n") ∧
    (findSubFrom updateHeadingPat
      ((getSectionLast exC7 1).getD [])).isSome = true := ⟨rfl, rfl⟩

/-- C7 (amended): the span of a numbered section is truncated at the Update
History heading only for the last numbered heading of the document: the text
of the last parsed section contains no line starting with the Update History
heading text (sections before the last one run to the next numbered heading
even across an embedded Update History block). -/
theorem C7_lastSectionExcludesUH (doc : Str) (p : Nat × Str)
    (h : (sectionSpans doc).getLast? = some p) :
    ∀ l ∈ splitNl p.2, notUHLine l = true := by
  unfold sectionSpans at h
  cases hh : headingsOf (splitNl doc) with
  | nil => rw [hh] at h; simp [spansFrom] at h
  | cons h0 hs =>
    obtain ⟨i, n⟩ := h0
    rw [hh] at h
    obtain ⟨j, m, _, h2⟩ := spansFrom_getLast? (splitNl doc) hs i n
    rw [h2] at h
    injection h with h3
    subst h3
    intro l hl
    have hnl : ∀ l ∈ ((splitNl doc).drop j).takeWhile notUHLine, ¬ '\n' ∈ l := by
      intro l hmem
      exact splitNl_not_mem_nl doc l
        (List.Sublist.mem (List.Sublist.mem hmem (List.takeWhile_sublist _))
          (List.drop_sublist _ _))
    rcases mem_splitNl_mkSectionText hnl l hl with hmem | hnil
    · exact List.mem_takeWhile_imp hmem
    · subst hnil; rfl

/-- C7 (witness): the last-section rule applied to the concrete existing
document, whose last parsed section is section five; its body line is not an
Update History heading line. -/
theorem C7_lastSectionExcludesUH_witness :
    notUHLine (lit "My own leadership notes.") = true :=
  C7_lastSectionExcludesUH exD0 (5, lit "## 5. Leadership\n\nMy own leadership notes.\n") rfl
    (lit "My own leadership notes.") (by decide)

theorem sub1_id_of_no_unit : ∀ s : Str, findSubFrom sepUnit s = none → sub1 s = s := by
  intro s
  induction s with
  | nil => intro _; rfl
  | cons c rest ih =>
    intro h
    have hp : sepUnit.isPrefixOf (c :: rest) = false := by
      cases hcp : sepUnit.isPrefixOf (c :: rest)
      · rfl
      · exfalso
        unfold findSubFrom at h
        rw [hcp] at h
        simp at h
    have hrest : findSubFrom sepUnit rest = none := by
      unfold findSubFrom at h
      rw [hp] at h
      simp only [Bool.false_eq_true, if_false, Option.map_eq_none'] at h
      exact h
    have hstep : sub1 (c :: rest) =
        if sepUnit.isPrefixOf (c :: rest) then sepRepl ++ sub1Aux 5 true rest
        else c :: sub1Aux 0 false rest := rfl
    rw [hstep, if_neg (by rw [hp]; exact Bool.false_ne_true)]
    exact congrArg (List.cons c) (ih hrest)

theorem sub1Aux_unit_false (t : Str) :
    sub1Aux 0 false (sepUnit ++ t) = sepRepl ++ sub1Aux 0 true t := by
  show sub1Aux 0 false ('\n' :: '-' :: '-' :: '-' :: '\n' :: '\n' :: t) = _
  rw [sub1Aux,
    if_pos (show List.isPrefixOf sepUnit ('\n' :: '-' :: '-' :: '-' :: '\n' :: '\n' :: t) = true
      by simp [sepUnit, List.isPrefixOf])]
  simp only [sub1Aux]
  simp

theorem sub1Aux_unit_true (t : Str) :
    sub1Aux 0 true (sepUnit ++ t) = sub1Aux 0 true t := by
  show sub1Aux 0 true ('\n' :: '-' :: '-' :: '-' :: '\n' :: '\n' :: t) = _
  rw [sub1Aux,
    if_pos (show List.isPrefixOf sepUnit ('\n' :: '-' :: '-' :: '-' :: '\n' :: '\n' :: t) = true
      by simp [sepUnit, List.isPrefixOf])]
  simp only [sub1Aux]
  simp

theorem sub1Aux_true_no_prefix (t : Str) (h : sepUnit.isPrefixOf t = false) :
    sub1Aux 0 true t = sub1 t := by
  cases t with
  | nil => rfl
  | cons c rest =>
    have e1 : sub1Aux 0 true (c :: rest) =
        if sepUnit.isPrefixOf (c :: rest) then ([] : Str) ++ sub1Aux 5 true rest
        else c :: sub1Aux 0 false rest := rfl
    have e2 : sub1 (c :: rest) =
        if sepUnit.isPrefixOf (c :: rest) then sepRepl ++ sub1Aux 5 true rest
        else c :: sub1Aux 0 false rest := rfl
    rw [e1, e2, if_neg (by rw [h]; exact Bool.false_ne_true),
      if_neg (by rw [h]; exact Bool.false_ne_true)]

theorem sub1_two_units (s : Str) (h : sepUnit.isPrefixOf s = false) :
    sub1 (sepUnit ++ sepUnit ++ s) = sepRepl ++ sub1 s := by
  rw [List.append_assoc]
  show sub1Aux 0 false (sepUnit ++ (sepUnit ++ s)) = _
  rw [sub1Aux_unit_false, sub1Aux_unit_true, sub1Aux_true_no_prefix s h]

theorem sub2_leading (s : Str) : sub2 (sepLine4 ++ s) = s := by
  unfold sub2
  rw [if_pos (show sepLine4.isPrefixOf (sepLine4 ++ s) = true by simp [sepLine4, List.isPrefixOf])]
  rfl

theorem sub2_not_leading (s : Str) (h : sepLine4.isPrefixOf s = false) : sub2 s = s := by
  unfold sub2
  rw [if_neg (by rw [h]; exact Bool.false_ne_true)]

/-- C8 (counterexample): with a fresh document whose header starts with two
separator lines, the merged document begins with a separator line: the final
normalization removes only one exactly-matching leading separator and does
not collapse the remaining arrangement, so the output can still begin with a
separator. -/
theorem C8_counterexample :
    exC8O.take 4 = sepLine4 ∧ (splitNl exC8O).head? = some (lit "---") := ⟨rfl, rfl⟩

/-- C8 (amended): the final normalization only rewrites occurrences of the
exact pattern separator-newline-newline preceded by a newline: a document
without that pattern is returned unchanged by the first substitution, an
exact-form run of two units collapses to the single canonical replacement
(one character longer than a unit), and the second substitution removes a
separator line exactly when the document starts with one; other separator
arrangements are untouched, so the output may keep adjacent separators or
begin with one. -/
theorem C8_separatorRule :
    (∀ s : Str, findSubFrom sepUnit s = none → sub1 s = s) ∧
    (∀ s : Str, sepUnit.isPrefixOf s = false →
      sub1 (sepUnit ++ sepUnit ++ s) = sepRepl ++ sub1 s) ∧
    (∀ s : Str, sub2 (sepLine4 ++ s) = s) ∧
    (∀ s : Str, sepLine4.isPrefixOf s = false → sub2 s = s) :=
  ⟨sub1_id_of_no_unit, sub1_two_units, sub2_leading, sub2_not_leading⟩

/-- C8 (witness): the amended normalization rules evaluated at concrete
texts. -/
theorem C8_separatorRule_witness :
    sub1 (lit "plain text") = lit "plain text" ∧
    sub1 (sepUnit ++ sepUnit ++ lit "X") = sepRepl ++ sub1 (lit "X") ∧
    sub2 (sepLine4 ++ lit "X") = lit "X" ∧
    sub2 (lit "no leading separator") = lit "no leading separator" :=
  ⟨C8_separatorRule.1 (lit "plain text") rfl,
   C8_separatorRule.2.1 (lit "X") rfl,
   C8_separatorRule.2.2.1 (lit "X"),
   C8_separatorRule.2.2.2 (lit "no leading separator") rfl⟩

theorem update_all_init_skips (ds : List Str) (today : Str) :
    ∀ (members : List TeamMember) (fs : List (Str × Str)),
      (∀ m ∈ members, (alookup fs m.name).isSome = true) →
      update_all_profiles true false false ds today members fs =
        (([], members.map (fun m => m.name)), fs) := by
  intro members
  induction members with
  | nil => intro fs _; rfl
  | cons m rest ih =>
    intro fs hall
    have hm : (alookup fs m.name).isSome = true := hall m (List.mem_cons_self _ _)
    have hrest : ∀ m' ∈ rest, (alookup fs m'.name).isSome = true :=
      fun m' h => hall m' (List.mem_cons_of_mem _ h)
    have hup : update_profile true false false (alookup fs m.name) m.newContent ds
        m.analytics today = none := by
      have hcond : (true && (alookup fs m.name).isSome && !false) = true := by rw [hm]; rfl
      unfold update_profile
      rw [if_pos hcond]
    simp only [update_all_profiles, hup, ih fs hrest]
    simp

/-- C9: in init mode without force, an existing profile makes the update
refuse: the per-member operation returns no content (the source returns false
before any write, so the file is untouched), and the batch over members whose
profiles all exist records every member as skipped, updates none, and leaves
the profile store unchanged. -/
theorem C9_initRefusal (existing : Option Str) (newC : Str) (ds : List Str)
    (a : Option AnalyticsData) (today : Str) (members : List TeamMember)
    (fs : List (Str × Str)) (hex : existing.isSome = true)
    (hall : ∀ m ∈ members, (alookup fs m.name).isSome = true) :
    update_profile true false false existing newC ds a today = none ∧
    update_all_profiles true false false ds today members fs =
      (([], members.map (fun m => m.name)), fs) := by
  constructor
  · have hcond : (true && existing.isSome && !false) = true := by rw [hex]; rfl
    unfold update_profile
    rw [if_pos hcond]
  · exact update_all_init_skips ds today members fs hall

/-- C9 (witness): two members whose profiles exist, init mode without force:
both are skipped and the store is unchanged. -/
theorem C9_initRefusal_witness :
    update_profile true false false (some (lit "old content")) (lit "fresh") [] none exToday =
      none ∧
    update_all_profiles true false false [] exToday
        [⟨lit "alice", lit "fresh", none⟩, ⟨lit "bob", lit "fresh", none⟩]
        [(lit "alice", lit "old a"), (lit "bob", lit "old b")] =
      (([], [lit "alice", lit "bob"]),
        [(lit "alice", lit "old a"), (lit "bob", lit "old b")]) :=
  C9_initRefusal (some (lit "old content")) (lit "fresh") [] none exToday
    [⟨lit "alice", lit "fresh", none⟩, ⟨lit "bob", lit "fresh", none⟩]
    [(lit "alice", lit "old a"), (lit "bob", lit "old b")] rfl (by decide)

/-- C10: the parser keys sections strictly by the parsed integer and a later
heading with the same number overwrites an earlier one: whenever the parsed
span list ends its bindings of number `n` with some pair, the section lookup
returns exactly that last binding, discarding every earlier occurrence. -/
theorem C10_duplicateLastWins (doc : Str) (n : Nat) (pre post : List (Nat × Str)) (s : Str)
    (hsp : sectionSpans doc = pre ++ (n, s) :: post)
    (hpost : ∀ p ∈ post, p.1 ≠ n) :
    getSectionLast doc n = some s := by
  unfold getSectionLast lookupLast
  rw [hsp, List.filter_append]
  have hpost' : List.filter (fun p => p.1 == n) post = [] := by
    rw [List.filter_eq_nil_iff]
    intro p hp
    simp only [beq_iff_eq]
    exact hpost p hp
  have hcons : List.filter (fun p => p.1 == n) ((n, s) :: post) = [(n, s)] := by
    rw [List.filter_cons, if_pos (by simp), hpost']
  rw [hcons, List.getLast?_concat]
  rfl

/-- C10 (witness): a document with two headings numbered three: the lookup
returns the span of the second, later heading. -/
theorem C10_duplicateLastWins_witness :
    getSectionLast exC10 3 = some (lit "## 3. Second\nnew\n") :=
  C10_duplicateLastWins exC10 3 [(3, lit "## 3. First\nold\n")] [] (lit "## 3. Second\nnew\n")
    rfl (by simp)
